import Mathlib

/-!
Verification of the `breaker` package (a circuit-breaker primitive) against
its specification.  The Go source (`breaker.go`) is shallowly embedded below:
the `Breaker` struct becomes a Lean structure, its methods become pure
functions threading the structure, `time.Time`/`time.Duration` become `Int`
(nanosecond timestamps and durations), and the protected operation `f` is
modelled by its outcome (`none` = success, `some e` = failure carrying the
error `e`).  Each buffered channel of capacity 1 (a subscriber sink) is a
`List State` of length at most 1.  Two ghost fields instrument the embedding
for the notification claims: `notifyLog` records every value pushed by
`notify`, and `transLog` records, for every notify call, the machine state
just before the triggering assignment together with the state notified.
-/

/-- State represents the state of the circuit breaker (Go `State` with the
constants StateOpen, StateClosed, StatePartial). -/
inductive State where
  | StateOpen
  | StateClosed
  | StatePartial
deriving DecidableEq, Repr

export State (StateOpen StateClosed StatePartial)

/-- Breaker represents a circuit breaker.  The fields `failCount`,
`successCount`, `lastFail`, `state`, `subscribers` are the Go struct fields;
`tripAfter` and `resetAfter` are the values captured by the `shouldTrip` and
`shouldReset` closures installed by `TripAfter` / `ResetAfter`; `notifyLog`
and `transLog` are ghost instrumentation of `notify`. -/
structure Breaker where
  failCount : Nat
  successCount : Nat
  lastFail : Int
  state : State
  tripAfter : Int
  resetAfter : Int
  subscribers : List (List State)
  notifyLog : List State
  transLog : List (State × State)
deriving DecidableEq, Repr

/-- Sending on a buffered channel of capacity 1: `some` of the new buffer
when there is room, `none` when the send would block. -/
def chanSend (c : List State) (s : State) : Option (List State) :=
  if c.length < 1 then some (c ++ [s]) else none

/-- The drain loop at the top of Go `notify`: receive until the channel is
empty. -/
def chanDrain (_c : List State) : List State := []

/-- Go `notify`: for each subscriber, drain the channel and then send the
new state (`old` is the ghost record of the state before the assignment
that triggered this notification). -/
def Breaker.notify (b : Breaker) (old : State) (s : State) : Breaker :=
  { b with
    subscribers := b.subscribers.map (fun c => (chanSend (chanDrain c) s).getD c)
    notifyLog := b.notifyLog ++ [s]
    transLog := b.transLog ++ [(old, s)] }

/-- FailCount returns the current count of failed transactions. -/
def Breaker.FailCount (b : Breaker) : Nat := b.failCount

/-- SuccessCount returns the current count of successful transactions. -/
def Breaker.SuccessCount (b : Breaker) : Nat := b.successCount

/-- CurrentState returns the current state of the circuit breaker. -/
def Breaker.CurrentState (b : Breaker) : State := b.state

/-- fail increments the failCount and records the failure time. -/
def Breaker.fail (b : Breaker) (now : Int) : Breaker :=
  { b with failCount := b.failCount + 1, lastFail := now }

/-- success increments the successCount. -/
def Breaker.success (b : Breaker) : Breaker :=
  { b with successCount := b.successCount + 1 }

/-- Reset returns the fail and success counters to zero, sets the state to
closed and notifies. -/
def Breaker.Reset (b : Breaker) : Breaker :=
  ({ b with state := StateClosed, failCount := 0, successCount := 0
   } : Breaker).notify b.state StateClosed

/-- Go `partial` (spelled `toPartial`, `partial` being a Lean keyword):
zero both counters, enter the partially open state and notify. -/
def Breaker.toPartial (b : Breaker) : Breaker :=
  ({ b with state := StatePartial, failCount := 0, successCount := 0
   } : Breaker).notify b.state StatePartial

/-- trip opens the breaker and notifies. -/
def Breaker.trip (b : Breaker) : Breaker :=
  ({ b with state := StateOpen } : Breaker).notify b.state StateOpen

/-- The closure installed by `TripAfter n`: `FailCount() >= n`. -/
def Breaker.shouldTrip (b : Breaker) : Bool :=
  (b.FailCount : Int) ≥ b.tripAfter

/-- The closure installed by `ResetAfter t`: `time.Now().After(lastFail.Add(t))`,
i.e. strictly after the reset time. -/
def Breaker.shouldReset (b : Breaker) (now : Int) : Bool :=
  if now > b.lastFail + b.resetAfter then true else false

/-- TripAfter configures the breaker to trip after n failed transactions. -/
def Breaker.TripAfter (b : Breaker) (n : Int) : Breaker :=
  { b with tripAfter := n }

/-- ResetAfter configures the breaker to reset after a period of time since
the last failure. -/
def Breaker.ResetAfter (b : Breaker) (t : Int) : Breaker :=
  { b with resetAfter := t }

/-- Subscribe registers a fresh empty capacity-1 channel as a new sink. -/
def Breaker.Subscribe (b : Breaker) : Breaker :=
  { b with subscribers := b.subscribers ++ [[]] }

/-- NewBreaker: closed state, trip after 5 failures, reset 50ms
(50000000ns) after the last failure. -/
def NewBreaker : Breaker :=
  (({ failCount := 0, successCount := 0, lastFail := 0, state := StateClosed
    , tripAfter := 0, resetAfter := 0, subscribers := [], notifyLog := []
    , transLog := [] } : Breaker).TripAfter 5).ResetAfter 50000000

/-- The outcome of a Protect call: either the distinguished "breaker open"
error or the protected operation's own error, passed through verbatim. -/
inductive ProtectErr (E : Type) where
  | breakerOpen
  | opErr (e : E)
deriving DecidableEq, Repr

/-- What one Protect call returns: the error (if any), the breaker after the
call, and how many times the protected operation was invoked. -/
structure ProtectResult (E : Type) where
  err : Option (ProtectErr E)
  breaker : Breaker
  invocations : Nat
deriving DecidableEq, Repr

/-- The body of Protect from `err := f()` on: invoke the operation once and
handle its outcome following the current state of the breaker. -/
def Breaker.protectRun {E : Type} (b : Breaker) (now : Int) (fres : Option E) :
    ProtectResult E :=
  match fres with
  | some e =>
      let b1 := b.fail now
      let b2 := if b1.CurrentState = StatePartial then b1.trip else b1
      let b3 := if b2.shouldTrip = true then b2.trip else b2
      { err := some (ProtectErr.opErr e), breaker := b3, invocations := 1 }
  | none =>
      let b1 := if b.CurrentState = StatePartial then b.Reset else b
      { err := none, breaker := b1.success, invocations := 1 }

/-- Protect wraps the protected operation: when the breaker is open it either
short-circuits (reset policy false) or enters the partially open state and
proceeds; otherwise the operation runs directly. -/
def Breaker.Protect {E : Type} (b : Breaker) (now : Int) (fres : Option E) :
    ProtectResult E :=
  if b.CurrentState = StateOpen then
    if b.shouldReset now = false then
      { err := some ProtectErr.breakerOpen, breaker := b, invocations := 0 }
    else
      (b.toPartial).protectRun now fres
  else
    b.protectRun now fres

/-- A call made against the breaker: a Protect call at wall-clock `now` with
the operation's outcome, or a Reset call. -/
inductive Call (E : Type) where
  | protect (now : Int) (fres : Option E)
  | reset
deriving DecidableEq, Repr

/-- Run a sequence of Protect/Reset calls against the breaker. -/
def runCalls {E : Type} (b : Breaker) : List (Call E) → Breaker
  | [] => b
  | Call.protect now fres :: rest => runCalls ((b.Protect now fres).breaker) rest
  | Call.reset :: rest => runCalls b.Reset rest

/-- Run a sequence of Protect calls (time stamp and outcome each). -/
def runProt {E : Type} (b : Breaker) : List (Int × Option E) → Breaker
  | [] => b
  | p :: rest => runProt ((b.Protect p.1 p.2).breaker) rest

/-- The number of failing calls in a Protect call sequence. -/
def countFails {E : Type} (l : List (Int × Option E)) : Nat :=
  (l.filter (fun p => p.2.isSome)).length

/-- A breaker freshly configured with trip threshold `n` and cooldown `r`. -/
def mkBreaker (n r : Int) : Breaker :=
  (NewBreaker.TripAfter n).ResetAfter r

/-- The notification discipline claimed by the spec: every notification
pushed to the sinks marks an actual change of state. -/
def notifyOnlyOnTransition (b : Breaker) : Prop :=
  ∀ p ∈ b.transLog, p.1 ≠ p.2

/-- A concretely reachable open breaker: threshold 1, cooldown 50, one failed
call at time 0 (so it tripped and lastFail = 0). -/
def cbOpen : Breaker := ((mkBreaker 1 50).Protect 0 (some ())).breaker

/-- The amended notification discipline: every notification marks an actual
change of state, except a Reset re-announcing Closed on an already-Closed
breaker. -/
def transitionsOk (b : Breaker) : Prop :=
  ∀ p ∈ b.transLog, p.1 ≠ p.2 ∨ (p.1 = StateClosed ∧ p.2 = StateClosed)

/-- Every subscriber sink holds at most one buffered value. -/
def subsInv (b : Breaker) : Prop :=
  ∀ ch ∈ b.subscribers, ch.length ≤ 1

/-- The pushed-notification history is exactly one push per recorded
notify event. -/
def logsAligned (b : Breaker) : Prop :=
  b.notifyLog = b.transLog.map Prod.snd

section FieldLemmas

variable (b : Breaker) (now : Int) (old s : State)

@[simp] lemma Breaker.notify_state : (b.notify old s).state = b.state := rfl

@[simp] lemma Breaker.notify_failCount :
    (b.notify old s).failCount = b.failCount := rfl

@[simp] lemma Breaker.notify_successCount :
    (b.notify old s).successCount = b.successCount := rfl

@[simp] lemma Breaker.notify_tripAfter :
    (b.notify old s).tripAfter = b.tripAfter := rfl

@[simp] lemma Breaker.notify_resetAfter :
    (b.notify old s).resetAfter = b.resetAfter := rfl

@[simp] lemma Breaker.notify_lastFail :
    (b.notify old s).lastFail = b.lastFail := rfl

@[simp] lemma Breaker.notify_transLog :
    (b.notify old s).transLog = b.transLog ++ [(old, s)] := rfl

@[simp] lemma Breaker.notify_notifyLog :
    (b.notify old s).notifyLog = b.notifyLog ++ [s] := rfl

@[simp] lemma Breaker.notify_subscribers :
    (b.notify old s).subscribers = b.subscribers.map (fun _ => [s]) := by
  simp [Breaker.notify, chanSend, chanDrain]

@[simp] lemma Breaker.fail_state : (b.fail now).state = b.state := rfl

@[simp] lemma Breaker.fail_failCount :
    (b.fail now).failCount = b.failCount + 1 := rfl

@[simp] lemma Breaker.fail_successCount :
    (b.fail now).successCount = b.successCount := rfl

@[simp] lemma Breaker.fail_tripAfter :
    (b.fail now).tripAfter = b.tripAfter := rfl

@[simp] lemma Breaker.fail_resetAfter :
    (b.fail now).resetAfter = b.resetAfter := rfl

@[simp] lemma Breaker.fail_lastFail : (b.fail now).lastFail = now := rfl

@[simp] lemma Breaker.fail_transLog : (b.fail now).transLog = b.transLog := rfl

@[simp] lemma Breaker.fail_subscribers :
    (b.fail now).subscribers = b.subscribers := rfl

@[simp] lemma Breaker.success_state : b.success.state = b.state := rfl

@[simp] lemma Breaker.success_failCount :
    b.success.failCount = b.failCount := rfl

@[simp] lemma Breaker.success_successCount :
    b.success.successCount = b.successCount + 1 := rfl

@[simp] lemma Breaker.success_tripAfter :
    b.success.tripAfter = b.tripAfter := rfl

@[simp] lemma Breaker.success_transLog : b.success.transLog = b.transLog := rfl

@[simp] lemma Breaker.success_subscribers :
    b.success.subscribers = b.subscribers := rfl

@[simp] lemma Breaker.trip_state : b.trip.state = StateOpen := rfl

@[simp] lemma Breaker.trip_failCount : b.trip.failCount = b.failCount := rfl

@[simp] lemma Breaker.trip_successCount :
    b.trip.successCount = b.successCount := rfl

@[simp] lemma Breaker.trip_tripAfter : b.trip.tripAfter = b.tripAfter := rfl

@[simp] lemma Breaker.trip_lastFail : b.trip.lastFail = b.lastFail := rfl

@[simp] lemma Breaker.trip_transLog :
    b.trip.transLog = b.transLog ++ [(b.state, StateOpen)] := rfl

@[simp] lemma Breaker.Reset_state : b.Reset.state = StateClosed := rfl

@[simp] lemma Breaker.Reset_failCount : b.Reset.failCount = 0 := rfl

@[simp] lemma Breaker.Reset_successCount : b.Reset.successCount = 0 := rfl

@[simp] lemma Breaker.Reset_tripAfter : b.Reset.tripAfter = b.tripAfter := rfl

@[simp] lemma Breaker.Reset_lastFail : b.Reset.lastFail = b.lastFail := rfl

@[simp] lemma Breaker.Reset_transLog :
    b.Reset.transLog = b.transLog ++ [(b.state, StateClosed)] := rfl

@[simp] lemma Breaker.toPartial_state : b.toPartial.state = StatePartial := rfl

@[simp] lemma Breaker.toPartial_failCount : b.toPartial.failCount = 0 := rfl

@[simp] lemma Breaker.toPartial_successCount :
    b.toPartial.successCount = 0 := rfl

@[simp] lemma Breaker.toPartial_tripAfter :
    b.toPartial.tripAfter = b.tripAfter := rfl

@[simp] lemma Breaker.toPartial_lastFail :
    b.toPartial.lastFail = b.lastFail := rfl

@[simp] lemma Breaker.toPartial_transLog :
    b.toPartial.transLog = b.transLog ++ [(b.state, StatePartial)] := rfl

@[simp] lemma Breaker.CurrentState_eq : b.CurrentState = b.state := rfl

@[simp] lemma Breaker.FailCount_eq : b.FailCount = b.failCount := rfl

@[simp] lemma Breaker.SuccessCount_eq : b.SuccessCount = b.successCount := rfl

end FieldLemmas

section ProtectLemmas

variable {E : Type}

lemma shouldTrip_iff (b : Breaker) :
    b.shouldTrip = true ↔ b.tripAfter ≤ (b.failCount : Int) := by
  simp [Breaker.shouldTrip]

lemma shouldReset_iff (b : Breaker) (now : Int) :
    b.shouldReset now = true ↔ b.lastFail + b.resetAfter < now := by
  simp [Breaker.shouldReset]

lemma Protect_open_noreset (b : Breaker) (now : Int) (fres : Option E)
    (hO : b.state = StateOpen) (hR : b.shouldReset now = false) :
    b.Protect now fres =
      { err := some ProtectErr.breakerOpen, breaker := b, invocations := 0 } := by
  simp [Breaker.Protect, hO, hR]

lemma Protect_open_reset (b : Breaker) (now : Int) (fres : Option E)
    (hO : b.state = StateOpen) (hR : b.shouldReset now = true) :
    b.Protect now fres = (b.toPartial).protectRun now fres := by
  simp [Breaker.Protect, hO, hR]

lemma Protect_notopen (b : Breaker) (now : Int) (fres : Option E)
    (hO : b.state ≠ StateOpen) :
    b.Protect now fres = b.protectRun now fres := by
  simp [Breaker.Protect, hO]

lemma protectRun_none_inPartial (b : Breaker) (now : Int)
    (hP : b.state = StatePartial) :
    b.protectRun now (none : Option E) =
      { err := none, breaker := b.Reset.success, invocations := 1 } := by
  simp [Breaker.protectRun, hP]

lemma protectRun_none_notInPartial (b : Breaker) (now : Int)
    (hP : b.state ≠ StatePartial) :
    b.protectRun now (none : Option E) =
      { err := none, breaker := b.success, invocations := 1 } := by
  simp [Breaker.protectRun, hP]

lemma protectRun_some_inPartial (b : Breaker) (now : Int) (e : E)
    (hP : b.state = StatePartial) :
    b.protectRun now (some e) =
      { err := some (ProtectErr.opErr e),
        breaker := if (b.fail now).trip.shouldTrip = true
                   then ((b.fail now).trip).trip else (b.fail now).trip,
        invocations := 1 } := by
  simp [Breaker.protectRun, hP]

lemma protectRun_some_notInPartial (b : Breaker) (now : Int) (e : E)
    (hP : b.state ≠ StatePartial) :
    b.protectRun now (some e) =
      { err := some (ProtectErr.opErr e),
        breaker := if (b.fail now).shouldTrip = true
                   then (b.fail now).trip else b.fail now,
        invocations := 1 } := by
  simp [Breaker.protectRun, hP]

lemma protectRun_invocations (b : Breaker) (now : Int) (fres : Option E) :
    (b.protectRun now fres).invocations = 1 := by
  cases fres <;> simp [Breaker.protectRun]

lemma state_ne_partial_iff (s : State) :
    s ≠ StatePartial ↔ s = StateClosed ∨ s = StateOpen := by
  cases s <;> simp

lemma protect_state_notPartial (b : Breaker) (now : Int) (fres : Option E)
    (h : b.state ≠ StatePartial) :
    ((b.Protect now fres).breaker).state ≠ StatePartial := by
  by_cases hO : b.state = StateOpen
  · cases hR : b.shouldReset now with
    | false =>
        rw [Protect_open_noreset b now fres hO hR]
        exact h
    | true =>
        rw [Protect_open_reset b now fres hO hR]
        cases fres with
        | none =>
            rw [protectRun_none_inPartial _ _ (by simp)]
            simp
        | some e =>
            rw [protectRun_some_inPartial _ _ _ (by simp)]
            split <;> simp
  · rw [Protect_notopen b now fres hO]
    cases fres with
    | none =>
        rw [protectRun_none_notInPartial _ _ h]
        simpa using h
    | some e =>
        rw [protectRun_some_notInPartial _ _ _ h]
        split <;> simp [h]

lemma protect_tripAfter (b : Breaker) (now : Int) (fres : Option E) :
    ((b.Protect now fres).breaker).tripAfter = b.tripAfter := by
  by_cases hO : b.state = StateOpen
  · cases hR : b.shouldReset now with
    | false => rw [Protect_open_noreset b now fres hO hR]
    | true =>
        rw [Protect_open_reset b now fres hO hR]
        cases fres with
        | none =>
            rw [protectRun_none_inPartial _ _ (by simp)]
            simp
        | some e =>
            rw [protectRun_some_inPartial _ _ _ (by simp)]
            split <;> simp
  · rw [Protect_notopen b now fres hO]
    cases fres with
    | none =>
        by_cases hP : b.state = StatePartial
        · rw [protectRun_none_inPartial _ _ hP]; simp
        · rw [protectRun_none_notInPartial _ _ hP]; simp
    | some e =>
        by_cases hP : b.state = StatePartial
        · rw [protectRun_some_inPartial _ _ _ hP]; split <;> simp
        · rw [protectRun_some_notInPartial _ _ _ hP]
          split <;> simp

end ProtectLemmas

example : (mkBreaker 2 1).state = StateClosed := by decide

example :
    ((mkBreaker 2 1).Protect 0 (some ())).breaker.failCount = 1 := by decide

example :
    (runProt (mkBreaker 2 1) [(0, some ()), (1, some ())]).state = StateOpen := by
  decide

/-- C10: under sequential execution the Partial state exists only transiently
inside a Protect call: for every starting state in Closed or Open and every
operation outcome, the state observed via CurrentState after the Protect call
returns is Closed or Open, never Partial. -/
theorem C10_partial_only_transient {E : Type} (b : Breaker) (now : Int)
    (fres : Option E)
    (h : b.CurrentState = StateClosed ∨ b.CurrentState = StateOpen) :
    (b.Protect now fres).breaker.CurrentState = StateClosed ∨
    (b.Protect now fres).breaker.CurrentState = StateOpen := by
  have h' : b.state ≠ StatePartial := by
    rcases h with h | h <;> rw [Breaker.CurrentState_eq] at h <;> rw [h] <;> decide
  have h2 := protect_state_notPartial b now fres h'
  rw [state_ne_partial_iff] at h2
  simpa using h2

theorem C10_witness :
    ((mkBreaker 5 50).CurrentState = StateClosed ∨
     (mkBreaker 5 50).CurrentState = StateOpen) ∧
    (((mkBreaker 5 50).Protect 0 (some ())).breaker.CurrentState = StateClosed ∨
     ((mkBreaker 5 50).Protect 0 (some ())).breaker.CurrentState = StateOpen) :=
  ⟨by decide, C10_partial_only_transient (mkBreaker 5 50) 0 (some ()) (by decide)⟩

/-- C7: Reset always forces the Closed state with both counters at zero, from
every prior state and counter values, and notifies every subscriber sink of
the Closed state. -/
theorem C7_reset_forces_closed (b : Breaker) :
    b.Reset.CurrentState = StateClosed ∧ b.Reset.FailCount = 0 ∧
    b.Reset.SuccessCount = 0 ∧
    b.Reset.notifyLog = b.notifyLog ++ [StateClosed] ∧
    b.Reset.subscribers = b.subscribers.map (fun _ => [StateClosed]) := by
  refine ⟨rfl, rfl, rfl, ?_, ?_⟩ <;> simp [Breaker.Reset]

/-- C8: the default reset policy evaluates true iff the current time is
strictly greater than lastFailureTime plus the configured cooldown; a call
arriving exactly at the boundary does not reset and is still rejected with
the breaker-open error, without invoking the operation. -/
theorem C8_reset_policy_strict {E : Type} (b : Breaker) (now : Int)
    (fres : Option E) :
    (b.shouldReset now = true ↔ b.lastFail + b.resetAfter < now) ∧
    (b.CurrentState = StateOpen → now = b.lastFail + b.resetAfter →
      (b.Protect now fres).err = some ProtectErr.breakerOpen ∧
      (b.Protect now fres).invocations = 0) := by
  refine ⟨shouldReset_iff b now, fun hO hEq => ?_⟩
  have hR : b.shouldReset now = false := by
    rw [Bool.eq_false_iff]
    intro hT
    rw [shouldReset_iff] at hT
    omega
  rw [Protect_open_noreset b now fres (by simpa using hO) hR]
  exact ⟨rfl, rfl⟩

theorem C8_witness :
    (cbOpen.Protect 50 (some ())).err = some ProtectErr.breakerOpen ∧
    (cbOpen.Protect 50 (some ())).invocations = 0 :=
  (C8_reset_policy_strict cbOpen 50 (some ())).2 (by decide) (by decide)

/-- C2: in the Open state with the reset policy false, Protect returns the
distinguished breaker-open error without invoking the operation and leaves
the breaker (state and both counters) unchanged; whenever the operation is
invoked and fails, Protect returns the operation's error verbatim. -/
theorem C2_short_circuit_and_verbatim_error {E : Type} (b : Breaker)
    (now : Int) (fres : Option E) (e : E) :
    (b.CurrentState = StateOpen → b.shouldReset now = false →
      (b.Protect now fres).err = some ProtectErr.breakerOpen ∧
      (b.Protect now fres).invocations = 0 ∧
      (b.Protect now fres).breaker = b) ∧
    ((b.Protect now (some e)).invocations ≠ 0 →
      (b.Protect now (some e)).err = some (ProtectErr.opErr e)) := by
  constructor
  · intro hO hR
    rw [Protect_open_noreset b now fres (by simpa using hO) hR]
    exact ⟨rfl, rfl, rfl⟩
  · intro hInv
    by_cases hO : b.state = StateOpen
    · cases hR : b.shouldReset now with
      | false =>
          rw [Protect_open_noreset b now (some e) hO hR] at hInv
          simp at hInv
      | true =>
          rw [Protect_open_reset b now (some e) hO hR,
              protectRun_some_inPartial _ _ _ (by simp)]
    · rw [Protect_notopen b now (some e) hO]
      by_cases hP : b.state = StatePartial
      · rw [protectRun_some_inPartial _ _ _ hP]
      · rw [protectRun_some_notInPartial _ _ _ hP]

theorem C2_witness :
    ((cbOpen.Protect 10 (some ())).err = some ProtectErr.breakerOpen ∧
     (cbOpen.Protect 10 (some ())).invocations = 0 ∧
     (cbOpen.Protect 10 (some ())).breaker = cbOpen) ∧
    ((mkBreaker 5 50).Protect 0 (some ())).err = some (ProtectErr.opErr ()) := by
  constructor
  · exact (C2_short_circuit_and_verbatim_error cbOpen 10 (some ()) ()).1
      (by decide) (by decide)
  · exact (C2_short_circuit_and_verbatim_error (mkBreaker 5 50) 0 (some ()) ()).2
      (by decide)

/-- C3: in the Open state with the reset policy true, Protect first
transitions the breaker to Partial with both counters reset to zero, and
then invokes the supplied operation exactly once. -/
theorem C3_open_reset_enters_partial {E : Type} (b : Breaker) (now : Int)
    (fres : Option E) (hO : b.CurrentState = StateOpen)
    (hR : b.shouldReset now = true) :
    b.Protect now fres = (b.toPartial).protectRun now fres ∧
    b.toPartial.CurrentState = StatePartial ∧
    b.toPartial.FailCount = 0 ∧ b.toPartial.SuccessCount = 0 ∧
    (b.Protect now fres).invocations = 1 := by
  have h1 := Protect_open_reset b now fres (by simpa using hO) hR
  exact ⟨h1, rfl, rfl, rfl, by rw [h1]; exact protectRun_invocations _ _ _⟩

theorem C3_witness :
    (cbOpen.Protect 100 (some ()) = (cbOpen.toPartial).protectRun 100 (some ())) ∧
    cbOpen.toPartial.CurrentState = StatePartial ∧
    cbOpen.toPartial.FailCount = 0 ∧ cbOpen.toPartial.SuccessCount = 0 ∧
    (cbOpen.Protect 100 (some ())).invocations = 1 :=
  C3_open_reset_enters_partial cbOpen 100 (some ()) (by decide) (by decide)

/-- C4: whenever the trial call executed in the Partial state succeeds,
Protect returns no error and the breaker ends Closed with successCount 1 and
failCount 0. -/
theorem C4_trial_success_closes {E : Type} (b : Breaker) (now : Int)
    (hO : b.CurrentState = StateOpen) (hR : b.shouldReset now = true) :
    (b.Protect now (none : Option E)).err = none ∧
    (b.Protect now (none : Option E)).breaker.CurrentState = StateClosed ∧
    (b.Protect now (none : Option E)).breaker.SuccessCount = 1 ∧
    (b.Protect now (none : Option E)).breaker.FailCount = 0 := by
  rw [Protect_open_reset b now none (by simpa using hO) hR,
      protectRun_none_inPartial _ _ (by simp)]
  exact ⟨rfl, rfl, rfl, rfl⟩

theorem C4_witness :
    (cbOpen.Protect 100 (none : Option Unit)).err = none ∧
    (cbOpen.Protect 100 (none : Option Unit)).breaker.CurrentState = StateClosed ∧
    (cbOpen.Protect 100 (none : Option Unit)).breaker.SuccessCount = 1 ∧
    (cbOpen.Protect 100 (none : Option Unit)).breaker.FailCount = 0 :=
  C4_trial_success_closes cbOpen 100 (by decide) (by decide)

/-- C5: whenever the trial call executed in the Partial state fails, the
breaker transitions to Open unconditionally, regardless of the configured
trip threshold, ending with failCount 1 and successCount 0, and the
operation's error is returned verbatim. -/
theorem C5_trial_failure_reopens {E : Type} (b : Breaker) (now : Int) (e : E)
    (hO : b.CurrentState = StateOpen) (hR : b.shouldReset now = true) :
    (b.Protect now (some e)).err = some (ProtectErr.opErr e) ∧
    (b.Protect now (some e)).breaker.CurrentState = StateOpen ∧
    (b.Protect now (some e)).breaker.FailCount = 1 ∧
    (b.Protect now (some e)).breaker.SuccessCount = 0 := by
  rw [Protect_open_reset b now (some e) (by simpa using hO) hR,
      protectRun_some_inPartial _ _ _ (by simp)]
  refine ⟨rfl, ?_, ?_, ?_⟩ <;> split <;> simp

theorem C5_witness :
    (cbOpen.Protect 100 (some ())).err = some (ProtectErr.opErr ()) ∧
    (cbOpen.Protect 100 (some ())).breaker.CurrentState = StateOpen ∧
    (cbOpen.Protect 100 (some ())).breaker.FailCount = 1 ∧
    (cbOpen.Protect 100 (some ())).breaker.SuccessCount = 0 :=
  C5_trial_failure_reopens cbOpen 100 () (by decide) (by decide)

section MoreFieldLemmas

variable (b : Breaker) (now : Int) (n r : Int)

@[simp] lemma Breaker.Reset_notifyLog :
    b.Reset.notifyLog = b.notifyLog ++ [StateClosed] := rfl

@[simp] lemma Breaker.toPartial_notifyLog :
    b.toPartial.notifyLog = b.notifyLog ++ [StatePartial] := rfl

@[simp] lemma Breaker.trip_notifyLog :
    b.trip.notifyLog = b.notifyLog ++ [StateOpen] := rfl

@[simp] lemma Breaker.success_notifyLog : b.success.notifyLog = b.notifyLog := rfl

@[simp] lemma Breaker.fail_notifyLog : (b.fail now).notifyLog = b.notifyLog := rfl

@[simp] lemma Breaker.Reset_subscribers :
    b.Reset.subscribers = b.subscribers.map (fun _ => [StateClosed]) := by
  simp [Breaker.Reset]

@[simp] lemma Breaker.toPartial_subscribers :
    b.toPartial.subscribers = b.subscribers.map (fun _ => [StatePartial]) := by
  simp [Breaker.toPartial]

@[simp] lemma Breaker.trip_subscribers :
    b.trip.subscribers = b.subscribers.map (fun _ => [StateOpen]) := by
  simp [Breaker.trip]

@[simp] lemma mkBreaker_state : (mkBreaker n r).state = StateClosed := rfl

@[simp] lemma mkBreaker_failCount : (mkBreaker n r).failCount = 0 := rfl

@[simp] lemma mkBreaker_successCount : (mkBreaker n r).successCount = 0 := rfl

@[simp] lemma mkBreaker_lastFail : (mkBreaker n r).lastFail = 0 := rfl

@[simp] lemma mkBreaker_tripAfter : (mkBreaker n r).tripAfter = n := rfl

@[simp] lemma mkBreaker_resetAfter : (mkBreaker n r).resetAfter = r := rfl

@[simp] lemma mkBreaker_subscribers : (mkBreaker n r).subscribers = [] := rfl

@[simp] lemma mkBreaker_notifyLog : (mkBreaker n r).notifyLog = [] := rfl

@[simp] lemma mkBreaker_transLog : (mkBreaker n r).transLog = [] := rfl

end MoreFieldLemmas

section ClosedStateLemmas

variable {E : Type}

lemma Protect_closed_none (b : Breaker) (now : Int)
    (hC : b.state = StateClosed) :
    (b.Protect now (none : Option E)).breaker = b.success := by
  rw [Protect_notopen b now none (by rw [hC]; decide),
      protectRun_none_notInPartial _ _ (by rw [hC]; decide)]

lemma Protect_closed_some_lt (b : Breaker) (now : Int) (e : E)
    (hC : b.state = StateClosed)
    (hlt : (b.failCount : Int) + 1 < b.tripAfter) :
    (b.Protect now (some e)).breaker = b.fail now := by
  rw [Protect_notopen b now (some e) (by rw [hC]; decide),
      protectRun_some_notInPartial _ _ _ (by rw [hC]; decide)]
  have hno : ¬ ((b.fail now).shouldTrip = true) := by
    rw [shouldTrip_iff]
    simp only [Breaker.fail_failCount, Breaker.fail_tripAfter]
    push_cast
    omega
  rw [if_neg hno]

lemma Protect_closed_some_ge (b : Breaker) (now : Int) (e : E)
    (hC : b.state = StateClosed)
    (hge : b.tripAfter ≤ (b.failCount : Int) + 1) :
    (b.Protect now (some e)).breaker = (b.fail now).trip := by
  rw [Protect_notopen b now (some e) (by rw [hC]; decide),
      protectRun_some_notInPartial _ _ _ (by rw [hC]; decide)]
  have hyes : (b.fail now).shouldTrip = true := by
    rw [shouldTrip_iff]
    simp only [Breaker.fail_failCount, Breaker.fail_tripAfter]
    push_cast
    omega
  rw [if_pos hyes]

end ClosedStateLemmas

section SinkLemmas

variable {E : Type}

lemma subsInv_map_const (l : List (List State)) (s : State) :
    ∀ ch ∈ l.map (fun _ => [s]), ch.length ≤ 1 := by
  intro ch hch
  rcases List.mem_map.mp hch with ⟨c, -, rfl⟩
  simp

lemma subsInv_notify (b : Breaker) (old s : State) : subsInv (b.notify old s) := by
  intro ch hch
  rw [Breaker.notify_subscribers] at hch
  exact subsInv_map_const _ _ ch hch

lemma subsInv_reset (b : Breaker) : subsInv b.Reset := by
  intro ch hch
  rw [Breaker.Reset_subscribers] at hch
  exact subsInv_map_const _ _ ch hch

lemma subsInv_protect (b : Breaker) (now : Int) (fres : Option E)
    (h : subsInv b) : subsInv ((b.Protect now fres).breaker) := by
  by_cases hO : b.state = StateOpen
  · cases hR : b.shouldReset now with
    | false => rw [Protect_open_noreset b now fres hO hR]; exact h
    | true =>
        rw [Protect_open_reset b now fres hO hR]
        cases fres with
        | none =>
            rw [protectRun_none_inPartial _ _ (by simp)]
            intro ch hch
            simp only [Breaker.success_subscribers,
              Breaker.Reset_subscribers] at hch
            rcases List.mem_map.mp hch with ⟨a, -, rfl⟩
            simp
        | some e =>
            rw [protectRun_some_inPartial _ _ _ (by simp)]
            intro ch hch
            split at hch <;>
              simp only [Breaker.trip_subscribers,
                Breaker.fail_subscribers] at hch <;>
              rcases List.mem_map.mp hch with ⟨a, -, rfl⟩ <;>
              simp
  · rw [Protect_notopen b now fres hO]
    cases fres with
    | none =>
        by_cases hP : b.state = StatePartial
        · rw [protectRun_none_inPartial _ _ hP]
          intro ch hch
          simp only [Breaker.success_subscribers, Breaker.Reset_subscribers] at hch
          exact subsInv_map_const _ _ ch hch
        · rw [protectRun_none_notInPartial _ _ hP]
          intro ch hch
          rw [Breaker.success_subscribers] at hch
          exact h ch hch
    | some e =>
        by_cases hP : b.state = StatePartial
        · rw [protectRun_some_inPartial _ _ _ hP]
          intro ch hch
          split at hch <;>
            simp only [Breaker.trip_subscribers,
              Breaker.fail_subscribers] at hch <;>
            rcases List.mem_map.mp hch with ⟨a, -, rfl⟩ <;>
            simp
        · rw [protectRun_some_notInPartial _ _ _ hP]
          intro ch hch
          split at hch
          · rw [Breaker.trip_subscribers, Breaker.fail_subscribers] at hch
            exact subsInv_map_const _ _ ch hch
          · rw [Breaker.fail_subscribers] at hch
            exact h ch hch

lemma subsInv_runCalls (l : List (Call E)) :
    ∀ b : Breaker, subsInv b → subsInv (runCalls b l) := by
  induction l with
  | nil => intro b h; exact h
  | cons c rest ih =>
      intro b h
      cases c with
      | protect now fres =>
          simp only [runCalls]
          exact ih _ (subsInv_protect b now fres h)
      | reset =>
          simp only [runCalls]
          exact ih _ (subsInv_reset b)

end SinkLemmas

/-- C9: every subscriber sink is a single-slot buffer: pushing a notification
drains any unread value and deposits the new one (so the push never blocks
and a reader observes only the most recently pushed state, never a backlog),
and along any sequence of calls every sink holds at most one buffered value. -/
theorem C9_single_slot_nonblocking {E : Type} (b : Breaker) (old s : State)
    (c : List State) (l : List (Call E)) (h : subsInv b) :
    chanSend (chanDrain c) s = some [s] ∧
    (b.notify old s).subscribers = b.subscribers.map (fun _ => [s]) ∧
    subsInv (runCalls b l) :=
  ⟨by simp [chanSend, chanDrain], Breaker.notify_subscribers b old s,
   subsInv_runCalls l b h⟩

theorem C9_witness :
    chanSend (chanDrain [StateClosed]) StateOpen = some [StateOpen] ∧
    ((mkBreaker 1 50).Subscribe.notify StateClosed StateOpen).subscribers =
      (mkBreaker 1 50).Subscribe.subscribers.map (fun _ => [StateOpen]) ∧
    subsInv (runCalls (mkBreaker 1 50).Subscribe
      [Call.protect 0 (some ()), Call.protect 100 (some ()), Call.reset]) :=
  C9_single_slot_nonblocking (mkBreaker 1 50).Subscribe StateClosed StateOpen
    [StateClosed] [Call.protect 0 (some ()), Call.protect 100 (some ()), Call.reset]
    (by unfold subsInv; decide)

section TripThresholdLemmas

variable {E : Type}

lemma countFails_nil : countFails ([] : List (Int × Option E)) = 0 := rfl

lemma countFails_cons_none (t : Int) (l : List (Int × Option E)) :
    countFails ((t, none) :: l) = countFails l := by
  simp [countFails]

lemma countFails_cons_some (t : Int) (e : E) (l : List (Int × Option E)) :
    countFails ((t, some e) :: l) = countFails l + 1 := by
  simp [countFails, List.filter_cons]

lemma countFails_append (l1 l2 : List (Int × Option E)) :
    countFails (l1 ++ l2) = countFails l1 + countFails l2 := by
  simp [countFails, List.filter_append]

lemma runProt_nil (b : Breaker) : runProt b ([] : List (Int × Option E)) = b := rfl

lemma runProt_cons (b : Breaker) (p : Int × Option E)
    (l : List (Int × Option E)) :
    runProt b (p :: l) = runProt ((b.Protect p.1 p.2).breaker) l := rfl

lemma runProt_append (b : Breaker) (l1 l2 : List (Int × Option E)) :
    runProt b (l1 ++ l2) = runProt (runProt b l1) l2 := by
  induction l1 generalizing b with
  | nil => rfl
  | cons p l ih => simp [runProt, ih]

lemma runProt_stays_closed (l : List (Int × Option E)) :
    ∀ b : Breaker, b.state = StateClosed →
    (b.failCount : Int) + countFails l < b.tripAfter →
    (runProt b l).state = StateClosed ∧
    (runProt b l).failCount = b.failCount + countFails l ∧
    (runProt b l).tripAfter = b.tripAfter := by
  induction l with
  | nil =>
      intro b hC _
      exact ⟨hC, by simp [countFails_nil, runProt_nil], rfl⟩
  | cons p rest ih =>
      intro b hC hlt
      rcases p with ⟨t, fres⟩
      cases fres with
      | none =>
          rw [runProt_cons]
          have hb' : ((b.Protect t (none : Option E)).breaker) = b.success :=
            Protect_closed_none b t hC
          rw [hb']
          have hcnt := countFails_cons_none t rest (E := E)
          rw [hcnt] at hlt ⊢
          have := ih b.success (by rw [Breaker.success_state]; exact hC)
            (by rw [Breaker.success_failCount, Breaker.success_tripAfter]; exact hlt)
          simpa using this
      | some e =>
          rw [runProt_cons]
          have hcnt := countFails_cons_some t e rest
          rw [hcnt] at hlt ⊢
          have hlt1 : (b.failCount : Int) + 1 < b.tripAfter := by
            push_cast at hlt
            omega
          have hb' : ((b.Protect t (some e)).breaker) = b.fail t :=
            Protect_closed_some_lt b t e hC hlt1
          rw [hb']
          have hrec := ih (b.fail t) (by rw [Breaker.fail_state]; exact hC)
            (by
              rw [Breaker.fail_failCount, Breaker.fail_tripAfter]
              push_cast at hlt ⊢
              omega)
          refine ⟨hrec.1, ?_, by rw [hrec.2.2, Breaker.fail_tripAfter]⟩
          rw [hrec.2.1, Breaker.fail_failCount]
          omega

end TripThresholdLemmas

/-- C1: for every trip threshold N at least 1, starting from a fresh breaker,
any sequence of Protect calls containing N-1 failures (successes freely
interleaved; they do not reset the failure count, so the failures need not be
consecutive) leaves the breaker Closed with failCount N-1, and one further
failing call transitions it to Open on exactly that N-th failure. -/
theorem C1_trips_on_nth_failure {E : Type} (N : Nat) (r : Int)
    (l : List (Int × Option E)) (t : Int) (e : E)
    (hN : 1 ≤ N) (hl : countFails l = N - 1) :
    (runProt (mkBreaker (N : Int) r) l).CurrentState = StateClosed ∧
    (runProt (mkBreaker (N : Int) r) l).FailCount = N - 1 ∧
    (runProt (mkBreaker (N : Int) r) (l ++ [(t, some e)])).CurrentState =
      StateOpen ∧
    (runProt (mkBreaker (N : Int) r) (l ++ [(t, some e)])).FailCount = N := by
  obtain ⟨h1, h2, h3⟩ := runProt_stays_closed l (mkBreaker (N : Int) r)
    (mkBreaker_state _ _)
    (by rw [mkBreaker_failCount, mkBreaker_tripAfter, hl]; push_cast; omega)
  rw [mkBreaker_failCount, hl] at h2
  rw [mkBreaker_tripAfter] at h3
  have h2' : (runProt (mkBreaker (N : Int) r) l).failCount = N - 1 := by
    rw [h2]; omega
  refine ⟨h1, h2', ?_, ?_⟩ <;> rw [runProt_append, runProt_cons, runProt_nil]
  · rw [Protect_closed_some_ge _ _ _ h1 (by rw [h3, h2']; omega)]
    rw [Breaker.CurrentState_eq, Breaker.trip_state]
  · rw [Protect_closed_some_ge _ _ _ h1 (by rw [h3, h2']; omega)]
    rw [Breaker.FailCount_eq, Breaker.trip_failCount, Breaker.fail_failCount, h2']
    omega

theorem C1_witness :
    (runProt (mkBreaker (3 : Int) 50)
        [((0 : Int), some ()), (1, none), (2, some ())]).CurrentState =
      StateClosed ∧
    (runProt (mkBreaker (3 : Int) 50)
        [((0 : Int), some ()), (1, none), (2, some ())]).FailCount = 3 - 1 ∧
    (runProt (mkBreaker (3 : Int) 50)
        ([((0 : Int), some ()), (1, none), (2, some ())] ++
          [(3, some ())])).CurrentState = StateOpen ∧
    (runProt (mkBreaker (3 : Int) 50)
        ([((0 : Int), some ()), (1, none), (2, some ())] ++
          [(3, some ())])).FailCount = 3 :=
  C1_trips_on_nth_failure 3 50 [((0 : Int), some ()), (1, none), (2, some ())]
    3 () (by decide) (by decide)

section NotificationLemmas

variable {E : Type}

lemma transitionsOk_reset (b : Breaker) (hb : transitionsOk b) :
    transitionsOk b.Reset := by
  intro p hp
  rw [Breaker.Reset_transLog] at hp
  rcases List.mem_append.mp hp with h | h
  · exact hb p h
  · rcases List.mem_singleton.mp h with rfl
    by_cases hc : b.state = StateClosed
    · exact Or.inr ⟨hc, rfl⟩
    · exact Or.inl hc

lemma transitionsOk_protect (b : Breaker) (now : Int) (fres : Option E)
    (hn : 2 ≤ b.tripAfter) (hs : b.state ≠ StatePartial)
    (hb : transitionsOk b) :
    transitionsOk ((b.Protect now fres).breaker) := by
  by_cases hO : b.state = StateOpen
  · cases hR : b.shouldReset now with
    | false => rw [Protect_open_noreset b now fres hO hR]; exact hb
    | true =>
        rw [Protect_open_reset b now fres hO hR]
        cases fres with
        | none =>
            rw [protectRun_none_inPartial _ _ (by simp)]
            intro p hp
            simp only [Breaker.success_transLog, Breaker.Reset_transLog,
              Breaker.toPartial_transLog, Breaker.toPartial_state, hO,
              List.append_assoc, List.mem_append, List.mem_singleton] at hp
            rcases hp with h | h | h
            · exact hb p h
            · subst h; exact Or.inl (by decide)
            · subst h; exact Or.inl (by decide)
        | some e =>
            rw [protectRun_some_inPartial _ _ _ (by simp)]
            have hno : ¬ (((b.toPartial).fail now).trip.shouldTrip = true) := by
              rw [shouldTrip_iff]
              simp only [Breaker.trip_failCount, Breaker.trip_tripAfter,
                Breaker.fail_failCount, Breaker.fail_tripAfter,
                Breaker.toPartial_failCount, Breaker.toPartial_tripAfter]
              push_cast
              omega
            rw [if_neg hno]
            intro p hp
            simp only [Breaker.trip_transLog, Breaker.fail_transLog,
              Breaker.fail_state, Breaker.toPartial_transLog,
              Breaker.toPartial_state, hO,
              List.append_assoc, List.mem_append, List.mem_singleton] at hp
            rcases hp with h | h | h
            · exact hb p h
            · subst h; exact Or.inl (by decide)
            · subst h; exact Or.inl (by decide)
  · have hC : b.state = StateClosed := by
      rcases state_ne_partial_iff b.state |>.mp hs with h | h
      · exact h
      · exact absurd h hO
    cases fres with
    | none =>
        rw [Protect_closed_none b now hC]
        intro p hp
        rw [Breaker.success_transLog] at hp
        exact hb p hp
    | some e =>
        by_cases hge : b.tripAfter ≤ (b.failCount : Int) + 1
        · rw [Protect_closed_some_ge b now e hC hge]
          intro p hp
          simp only [Breaker.trip_transLog, Breaker.fail_transLog,
            Breaker.fail_state, hC, List.mem_append, List.mem_singleton] at hp
          rcases hp with h | h
          · exact hb p h
          · subst h; exact Or.inl (by decide)
        · rw [Protect_closed_some_lt b now e hC (by omega)]
          intro p hp
          rw [Breaker.fail_transLog] at hp
          exact hb p hp

lemma transitionsOk_runCalls (l : List (Call E)) :
    ∀ b : Breaker, 2 ≤ b.tripAfter → b.state ≠ StatePartial →
    transitionsOk b → transitionsOk (runCalls b l) := by
  induction l with
  | nil => intro b _ _ hb; exact hb
  | cons c rest ih =>
      intro b hn hs hb
      cases c with
      | protect now fres =>
          simp only [runCalls]
          exact ih _ (by rw [protect_tripAfter]; exact hn)
            (protect_state_notPartial b now fres hs)
            (transitionsOk_protect b now fres hn hs hb)
      | reset =>
          simp only [runCalls]
          exact ih _ (by rw [Breaker.Reset_tripAfter]; exact hn)
            (by rw [Breaker.Reset_state]; decide)
            (transitionsOk_reset b hb)

lemma logsAligned_reset (b : Breaker) (h : logsAligned b) :
    logsAligned b.Reset := by
  unfold logsAligned at h ⊢
  simp [h]

lemma logsAligned_protect (b : Breaker) (now : Int) (fres : Option E)
    (h : logsAligned b) : logsAligned ((b.Protect now fres).breaker) := by
  unfold logsAligned at h ⊢
  by_cases hO : b.state = StateOpen
  · cases hR : b.shouldReset now with
    | false => rw [Protect_open_noreset b now fres hO hR]; exact h
    | true =>
        rw [Protect_open_reset b now fres hO hR]
        cases fres with
        | none => rw [protectRun_none_inPartial _ _ (by simp)]; simp [h]
        | some e =>
            rw [protectRun_some_inPartial _ _ _ (by simp)]
            split <;> simp [h]
  · rw [Protect_notopen b now fres hO]
    cases fres with
    | none =>
        by_cases hP : b.state = StatePartial
        · rw [protectRun_none_inPartial _ _ hP]; simp [h]
        · rw [protectRun_none_notInPartial _ _ hP]; simp [h]
    | some e =>
        by_cases hP : b.state = StatePartial
        · rw [protectRun_some_inPartial _ _ _ hP]; split <;> simp [h]
        · rw [protectRun_some_notInPartial _ _ _ hP]; split <;> simp [h]

lemma logsAligned_runCalls (l : List (Call E)) :
    ∀ b : Breaker, logsAligned b → logsAligned (runCalls b l) := by
  induction l with
  | nil => intro b h; exact h
  | cons c rest ih =>
      intro b h
      cases c with
      | protect now fres =>
          simp only [runCalls]
          exact ih _ (logsAligned_protect b now fres h)
      | reset =>
          simp only [runCalls]
          exact ih _ (logsAligned_reset b h)

end NotificationLemmas

/-- C6 counterexample: with trip threshold 1 and cooldown 1, the run
Reset; failing Protect at time 0; failing Protect at time 10 pushes five
notifications while only three state transitions occur: the Reset
re-announces Closed with no transition, and the failed trial in Partial
pushes Open twice (once for Partial to Open, then again because the trip
policy also evaluates true).  So notifications are not pushed only when a
transition occurs. -/
theorem C6_counterexample :
    (runCalls (mkBreaker 1 1) [Call.reset, Call.protect 0 (some ()),
        Call.protect 10 (some ())]).transLog =
      [(StateClosed, StateClosed), (StateClosed, StateOpen),
       (StateOpen, StatePartial), (StatePartial, StateOpen),
       (StateOpen, StateOpen)] ∧
    ¬ notifyOnlyOnTransition (runCalls (mkBreaker 1 1)
        [Call.reset, Call.protect 0 (some ()), Call.protect 10 (some ())]) := by
  unfold notifyOnlyOnTransition
  decide

/-- C6 (amended): each notify event pushes exactly one notification per
sink and appends exactly one entry to the ghost transition log (the pushed
history equals the log's notified states); with trip threshold at least 2,
along every sequence of Protect and Reset calls from a fresh breaker, every
pushed notification marks an actual state change, except that Reset pushes a
Closed notification even when the breaker is already Closed. -/
theorem C6_amended_notifications {E : Type} (n r : Int) (hn : 2 ≤ n)
    (l : List (Call E)) :
    transitionsOk (runCalls (mkBreaker n r) l) ∧
    logsAligned (runCalls (mkBreaker n r) l) :=
  ⟨transitionsOk_runCalls l _ (by rw [mkBreaker_tripAfter]; exact hn)
      (by rw [mkBreaker_state]; decide)
      (by intro p hp; rw [mkBreaker_transLog] at hp; simp at hp),
   logsAligned_runCalls l _ (by unfold logsAligned; rfl)⟩

theorem C6_witness :
    transitionsOk (runCalls (mkBreaker 5 50)
      [Call.protect 0 (some ()), Call.protect 100 (none : Option Unit),
       Call.reset]) ∧
    logsAligned (runCalls (mkBreaker 5 50)
      [Call.protect 0 (some ()), Call.protect 100 (none : Option Unit),
       Call.reset]) :=
  C6_amended_notifications 5 50 (by decide)
    [Call.protect 0 (some ()), Call.protect 100 (none : Option Unit),
     Call.reset]
